import Mathlib

/-!
Verification of the document-store subsystem of `scripts/chromadb_setup.py`
(a RAG ingestion/retrieval tool).  The Python source is shallowly embedded:
pure helpers become Lean functions, the filesystem state of the fallback JSON
store becomes an explicit `FileState`, the externally-determined outcomes of
the Chroma vector-store calls become an outcome oracle `ChromaEnv`, and a
Python exception escaping an operation is modelled by an `Option`-valued
result being `none`.  Embedding-vector components are modelled as rationals
(the stub embedding's arithmetic `ord(c) % 97 / 97.0` is exact there).
-/

/-- Metadata mapping of a document record (`metadata` field in the JSON store). -/
abbrev Metadata := List (String × String)

/-- One record of the fallback JSON store: `{id, text, metadata, embedding}`
(see the dict literal built in `add_documents_to_chroma`). -/
structure Record where
  id : String
  text : String
  metadata : Metadata
  embedding : List ℚ
deriving DecidableEq, Repr

/-- An embedding function: maps a batch of strings to a batch of vectors
(the callable returned by `get_embedding_function`). -/
abbrev EmbFn := List String → List (List ℚ)

/-- ASCII lowercasing, as Python `str.lower()` acts on ASCII text: every
character is lowercased independently. -/
def lowerStr (s : String) : String := String.mk (s.toList.map Char.toLower)

/-- Python whitespace characters recognised by `str.split()` with no argument. -/
def isPySpace (c : Char) : Bool :=
  c = ' ' || c = '\t' || c = '\n' || c = '\r' || c = '\x0b' || c = '\x0c'

/-- Cut a character list at every whitespace character, keeping empty pieces;
`cur` accumulates the piece in progress, reversed. -/
def splitAcc (cur : List Char) : List Char → List (List Char)
  | [] => [cur.reverse]
  | c :: t => if isPySpace c then cur.reverse :: splitAcc [] t
              else splitAcc (c :: cur) t

/-- Python `s.split()` with no argument: the maximal whitespace-free runs of
`s` in order, no empty pieces (cut at every whitespace character, then drop
the empties). -/
def pySplit (s : String) : List String :=
  ((splitAcc [] s.toList).map String.mk).filter (fun t => ¬ t = "")

/-- The token set `set(s.lower().split())` used by the fallback search. -/
def tokenSet (s : String) : Finset String := (pySplit (lowerStr s)).toFinset

/-- List prefix test on characters (helper for substring containment). -/
def isPre : List Char → List Char → Bool
  | [], _ => true
  | _ :: _, [] => false
  | a :: as, b :: bs => a = b && isPre as bs

/-- Substring containment on character lists (helper for Python `in`). -/
def hasSub : List Char → List Char → Bool
  | [], needle => isPre needle []
  | c :: t, needle => isPre needle (c :: t) || hasSub t needle

/-- Python `needle in hay` on strings. -/
def strContains (hay needle : String) : Bool := hasSub hay.toList needle.toList

/-- Mismatch test of `get_chroma_db` (line 161):
`"dimension" in msg or "embedding" in msg or "mismatch" in msg`
where `msg = str(e).lower()`. -/
def mismatchOpenMsg (e : String) : Bool :=
  strContains (lowerStr e) "dimension" || strContains (lowerStr e) "embedding" ||
    strContains (lowerStr e) "mismatch"

/-- Mismatch test of `add_documents_to_chroma` (line 192):
`"dimension" in msg or "mismatch" in msg or "shape" in msg`
where `msg = str(e).lower()`. -/
def mismatchAddMsg (e : String) : Bool :=
  strContains (lowerStr e) "dimension" || strContains (lowerStr e) "mismatch" ||
    strContains (lowerStr e) "shape"

/-- Stub embedding of one string (`vec` inside `_fake_embed`):
`s = (s or "")[:256]; [float(ord(c) % 97) / 97.0 for c in s.ljust(32, "\0")[:32]]`. -/
def fakeVec (s : String) : List ℚ :=
  let cs := s.toList.take 256
  ((cs ++ List.replicate (32 - cs.length) '\x00').take 32).map
    (fun c => ((c.toNat % 97 : ℕ) : ℚ) / 97)

/-- The tier-4 deterministic stub `_fake_embed(texts)`. -/
def fake_embed (texts : List String) : List (List ℚ) := texts.map fakeVec

/-- The `_EmbeddingAdapter` class: wraps a raw batch embedding callable. -/
structure EmbeddingAdapter where
  fn : EmbFn

/-- Method `embed_documents(self, texts): return self._fn(texts)`. -/
def EmbeddingAdapter.embed_documents (a : EmbeddingAdapter) (texts : List String) :
    List (List ℚ) := a.fn texts

/-- Method `embed_query(self, text): return self._fn([text])[0]`; the result is
`none` when indexing `[0]` would raise on an empty batch result. -/
def EmbeddingAdapter.embed_query (a : EmbeddingAdapter) (text : String) :
    Option (List ℚ) := (a.fn [text]).head?

/-- On-disk state of the fallback JSON file `chromadb_store.json`: absent,
present but unparsable, or a parsed array of records. -/
inductive FileState where
  | absent : FileState
  | corrupt : FileState
  | records (rs : List Record) : FileState
deriving DecidableEq, Repr

/-- The load performed by the fallback branch of `add_documents_to_chroma`
(lines 211-216): `items = []`, then if the file exists try to parse it,
swallowing any parse failure. -/
def loadItems : FileState → List Record
  | .absent => []
  | .corrupt => []
  | .records rs => rs

/-- Metadata picked for index `i`:
`metadatas[i] if metadatas and i < len(metadatas) else {}`
(`metadatas` is truthy when it is not `None` and non-empty). -/
def mdAt (metadatas : Option (List Metadata)) (i : Nat) : Metadata :=
  match metadatas with
  | none => []
  | some ms => if 0 < ms.length ∧ i < ms.length then ms.getD i [] else []

/-- The append loop of `add_documents_to_chroma` (lines 218-224): each record
gets id `doc-<len(items)+1>` computed from the growing list; `embs[i]` raising
an `IndexError` is modelled by returning `none`. -/
def appendLoop (items : List Record) (texts : List String)
    (mds : Option (List Metadata)) (embs : List (List ℚ)) (i : Nat) :
    Option (List Record) :=
  match texts with
  | [] => some items
  | t :: rest =>
    match embs[i]? with
    | none => none
    | some e =>
      appendLoop
        (items ++ [{ id := "doc-" ++ toString (items.length + 1), text := t,
                     metadata := mdAt mds i, embedding := e }])
        rest mds embs (i + 1)

/-- The whole fallback write path of `add_documents_to_chroma` (lines 210-226):
load (corruption swallowed), embed, append one record per text, rewrite. -/
def fallback_append (st : FileState) (texts : List String)
    (mds : Option (List Metadata)) (embedFn : EmbFn) : Option FileState :=
  (appendLoop (loadItems st) texts mds (embedFn texts) 0).map FileState.records

/-- Closed form of the records built by `appendLoop` on top of `base` existing
items, reading metadata and embeddings from input position `i` on. -/
def builtRecords (base : Nat) (i : Nat) (texts : List String)
    (mds : Option (List Metadata)) (embs : List (List ℚ)) : List Record :=
  match texts with
  | [] => []
  | t :: rest =>
    { id := "doc-" ++ toString (base + 1), text := t,
      metadata := mdAt mds i, embedding := embs.getD i [] } ::
      builtRecords (base + 1) (i + 1) rest mds embs

/-- Score of one stored record against the query token set (line 243):
`len(qtokens & set(d.get("text", "").lower().split()))`. -/
def scoreOf (query text : String) : Nat := (tokenSet query ∩ tokenSet text).card

/-- The scored list built in stored order (lines 241-244). -/
def scoredList (data : List Record) (query : String) : List (Nat × Record) :=
  data.map (fun d => (scoreOf query d.text, d))

/-- Python's `scored.sort(key=lambda x: x[0], reverse=True)`: a stable sort,
descending on the score component.  Any stable sort realises it; we use
insertion sort with the non-strict descending comparison, which places each
element before the strictly smaller ones and after its earlier-listed ties. -/
def sortScored (l : List (Nat × Record)) : List (Nat × Record) :=
  l.insertionSort (fun a b => b.1 ≤ a.1)

/-- The fallback branch of `search_chroma` (lines 236-246).  No result when the
file exists but is corrupt: line 239 calls `json.loads` with no handler, so the
parse error escapes; this is modelled as `none`. -/
def fallback_search (st : FileState) (query : String) (k : Nat) :
    Option (List Record) :=
  match st with
  | .absent => some []
  | .corrupt => none
  | .records data => some (((sortScored (scoredList data query)).take k).map Prod.snd)

/-- Mutable state threaded through the vector-store manager: how many Chroma
constructions and `add_texts` calls have happened (to index the outcome
oracle), how many `_reinit_chroma_dir` calls ran, the persist directory's
contents (`none` when the directory does not exist), and the fallback file. -/
structure StoreState where
  openIdx : Nat
  addIdx : Nat
  reinits : Nat
  dir : Option (List String)
  file : FileState
deriving DecidableEq, Repr

/-- Outcome oracle for the external Chroma library: whether any `Chroma` class
was importable, and the result of the n-th construction attempt and of the
n-th `add_texts` call (an `error` carries the exception's message `str(e)`). -/
structure ChromaEnv where
  chromaAvailable : Bool
  openOutcome : Nat → Except String Unit
  addOutcome : Nat → Except String Unit

/-- Model of `_reinit_chroma_dir` (lines 128-139): remove the persist directory
when it exists and recreate it empty. -/
def reinit_chroma_dir (s : StoreState) : StoreState :=
  { s with dir := some [], reinits := s.reinits + 1 }

/-- Model of `get_chroma_db` (lines 141-172).  The embedding function is
resolved first and returned from every branch; when `Chroma` is unavailable or
construction fails, the handle component is `none`.  A construction failure
whose lowercased message contains "dimension", "embedding" or "mismatch"
triggers `_reinit_chroma_dir` and exactly one further construction attempt. -/
def get_chroma_db (env : ChromaEnv) (embedFn : EmbFn) (s : StoreState) :
    (Option Unit × EmbFn) × StoreState :=
  if env.chromaAvailable = false then ((none, embedFn), s)
  else
    match env.openOutcome s.openIdx with
    | .ok _ => ((some (), embedFn), { s with openIdx := s.openIdx + 1 })
    | .error e =>
      let s1 := { s with openIdx := s.openIdx + 1 }
      if mismatchOpenMsg e then
        let s2 := reinit_chroma_dir s1
        match env.openOutcome s2.openIdx with
        | .ok _ => ((some (), embedFn), { s2 with openIdx := s2.openIdx + 1 })
        | .error _ => ((none, embedFn), { s2 with openIdx := s2.openIdx + 1 })
      else ((none, embedFn), s1)

/-- The fallback write of lines 210-226 acting on the threaded state. -/
def writeFallbackState (embedFn : EmbFn) (texts : List String)
    (mds : Option (List Metadata)) (s : StoreState) : Option StoreState :=
  (appendLoop (loadItems s.file) texts mds (embedFn texts) 0).map
    (fun items => { s with file := FileState.records items })

/-- Model of `add_documents_to_chroma` (lines 174-226).  With a store handle,
`add_texts` is attempted; on failure whose lowercased message contains
"dimension", "mismatch" or "shape", the persist directory is reinitialized,
a fresh handle is opened and the add retried exactly once; any other failure,
a failed retry, or no handle at all routes the request to the fallback JSON
store.  `persist()` failures are swallowed and not modelled.  `none` models an
exception escaping (only possible from the fallback write's embedding
indexing). -/
def add_documents_to_chroma (env : ChromaEnv) (embedFn : EmbFn)
    (texts : List String) (mds : Option (List Metadata)) (s : StoreState) :
    Option StoreState :=
  let r1 := get_chroma_db env embedFn s
  match r1.1.1 with
  | some _ =>
    let s1 := r1.2
    (match env.addOutcome s1.addIdx with
     | .ok _ => some { s1 with addIdx := s1.addIdx + 1 }
     | .error e =>
       let s2 := { s1 with addIdx := s1.addIdx + 1 }
       if mismatchAddMsg e then
         let s3 := reinit_chroma_dir s2
         let r2 := get_chroma_db env embedFn s3
         match r2.1.1 with
         | some _ =>
           (match env.addOutcome r2.2.addIdx with
            | .ok _ => some { r2.2 with addIdx := r2.2.addIdx + 1 }
            | .error _ =>
              writeFallbackState r1.1.2 texts mds
                { r2.2 with addIdx := r2.2.addIdx + 1 })
         | none => writeFallbackState r1.1.2 texts mds r2.2
       else writeFallbackState r1.1.2 texts mds s2)
  | none => writeFallbackState r1.1.2 texts mds r1.2

/-! ## Lemmas about the fallback append loop -/

theorem mdAt_eq (mds : Option (List Metadata)) (i : Nat) :
    mdAt mds i = (mds.getD []).getD i [] := by
  cases mds with
  | none => simp [mdAt]
  | some ms =>
    by_cases h : i < ms.length
    · have h0 : 0 < ms.length := Nat.lt_of_le_of_lt (Nat.zero_le i) h
      simp [mdAt, h, h0]
    · simp only [mdAt, Option.getD_some, h, and_false, if_false]
      exact (List.getD_eq_default _ _ (Nat.le_of_not_lt h)).symm

theorem builtRecords_length (base i : Nat) (texts : List String)
    (mds : Option (List Metadata)) (embs : List (List ℚ)) :
    (builtRecords base i texts mds embs).length = texts.length := by
  induction texts generalizing base i with
  | nil => rfl
  | cons t rest ih => simp [builtRecords, ih]

theorem builtRecords_getElem (texts : List String) (base i j : Nat)
    (mds : Option (List Metadata)) (embs : List (List ℚ))
    (hj : j < texts.length) :
    (builtRecords base i texts mds embs)[j]? =
      some { id := "doc-" ++ toString (base + j + 1), text := texts.getD j "",
             metadata := mdAt mds (i + j), embedding := embs.getD (i + j) [] } := by
  induction texts generalizing base i j with
  | nil => exact absurd hj (Nat.not_lt_zero j)
  | cons t rest ih =>
    cases j with
    | zero => simp [builtRecords]
    | succ j' =>
      have hj' : j' < rest.length := Nat.lt_of_succ_lt_succ hj
      have := ih (base + 1) (i + 1) j' hj'
      simp only [builtRecords, List.getElem?_cons_succ, this]
      have h1 : base + 1 + j' = base + (j' + 1) := by omega
      have h2 : i + 1 + j' = i + (j' + 1) := by omega
      rw [h1, h2]
      simp [List.getD_cons_succ]

theorem appendLoop_eq (texts : List String) (items : List Record)
    (mds : Option (List Metadata)) (embs : List (List ℚ)) (i : Nat)
    (h : i + texts.length ≤ embs.length) :
    appendLoop items texts mds embs i =
      some (items ++ builtRecords items.length i texts mds embs) := by
  induction texts generalizing items i with
  | nil => simp [appendLoop, builtRecords]
  | cons t rest ih =>
    have hi : i < embs.length := by simp at h; omega
    have hget : embs[i]? = some embs[i] := List.getElem?_eq_getElem hi
    have hrec : i + 1 + rest.length ≤ embs.length := by simp at h; omega
    have := ih (items ++ [{ id := "doc-" ++ toString (items.length + 1), text := t,
                            metadata := mdAt mds i, embedding := embs[i] }]) (i + 1) hrec
    simp only [appendLoop, hget, this, builtRecords]
    rw [List.append_assoc]
    simp [List.getD_eq_getElem?_getD, hget]

/-- C1 — Fallback-store append monotonicity: from any prior fallback-file
state holding `N` records (absent and corrupt states hold 0) and any batch of
`n` texts, the append produces a file of exactly `N + n` records; the prior
records survive unchanged as a prefix (so no existing id is overwritten) and
the new records carry ids `doc-(N+1) .. doc-(N+n)` in input order with the
input texts.  The hypothesis is the embedding contract of §4.1: one vector
per input. -/
theorem fallback_append_monotonic (st : FileState) (texts : List String)
    (mds : Option (List Metadata)) (embedFn : EmbFn)
    (hlen : (embedFn texts).length = texts.length) :
    ∃ newRecs : List Record,
      fallback_append st texts mds embedFn =
        some (FileState.records (loadItems st ++ newRecs)) ∧
      newRecs.length = texts.length ∧
      (loadItems st ++ newRecs).length = (loadItems st).length + texts.length ∧
      ∀ j, j < texts.length →
        newRecs[j]?.map Record.id =
          some ("doc-" ++ toString ((loadItems st).length + j + 1)) ∧
        newRecs[j]?.map Record.text = some (texts.getD j "") := by
  refine ⟨builtRecords (loadItems st).length 0 texts mds (embedFn texts), ?_, ?_, ?_, ?_⟩
  · unfold fallback_append
    rw [appendLoop_eq texts (loadItems st) mds (embedFn texts) 0 (by omega)]
    rfl
  · exact builtRecords_length _ _ _ _ _
  · simp [builtRecords_length]
  · intro j hj
    rw [builtRecords_getElem texts (loadItems st).length 0 j mds (embedFn texts) hj]
    exact ⟨rfl, rfl⟩

/-- Witness for C1 at a concrete input: one prior record, two appended texts,
giving ids doc-2 and doc-3. -/
theorem fallback_append_monotonic_witness :
    ∃ newRecs : List Record,
      fallback_append (FileState.records [⟨"doc-1", "a", [], []⟩]) ["b", "c"] none
          fake_embed =
        some (FileState.records ([⟨"doc-1", "a", [], []⟩] ++ newRecs)) ∧
      newRecs.length = 2 ∧
      newRecs[0]?.map Record.id = some "doc-2" ∧
      newRecs[1]?.map Record.id = some "doc-3" := by
  obtain ⟨nr, h1, h2, h3, h4⟩ :=
    fallback_append_monotonic (FileState.records [⟨"doc-1", "a", [], []⟩])
      ["b", "c"] none fake_embed (by rfl)
  refine ⟨nr, h1, h2, ?_, ?_⟩
  · rw [(h4 0 (by decide)).1]; decide
  · rw [(h4 1 (by decide)).1]; decide

/-- C10 — Fallback append tolerates short or absent metadata: with `metadatas`
equal to `None` or shorter than `texts`, the append still succeeds (never
raises), keeps the count guarantee, and gives the record at index `j` the
metadata `metadatas[j]` when `j < len(metadatas)` and the empty mapping
otherwise — expressed as `(mds.getD []).getD j []`, which reads `metadatas[j]`
inside bounds and yields the empty mapping when `metadatas` is `None` or `j`
is out of range. -/
theorem fallback_append_short_metadata (st : FileState) (texts : List String)
    (mds : Option (List Metadata)) (embedFn : EmbFn)
    (hlen : (embedFn texts).length = texts.length)
    (hshort : mds = none ∨ ∃ ms, mds = some ms ∧ ms.length < texts.length) :
    ∃ newRecs : List Record,
      fallback_append st texts mds embedFn =
        some (FileState.records (loadItems st ++ newRecs)) ∧
      newRecs.length = texts.length ∧
      ∀ j, j < texts.length →
        newRecs[j]?.map Record.metadata = some ((mds.getD []).getD j []) := by
  refine ⟨builtRecords (loadItems st).length 0 texts mds (embedFn texts), ?_, ?_, ?_⟩
  · unfold fallback_append
    rw [appendLoop_eq texts (loadItems st) mds (embedFn texts) 0 (by omega)]
    rfl
  · exact builtRecords_length _ _ _ _ _
  · intro j hj
    rw [builtRecords_getElem texts (loadItems st).length 0 j mds (embedFn texts) hj,
      show (0 : ℕ) + j = j from Nat.zero_add j]
    exact congrArg some (mdAt_eq mds j)

/-- Witness for C10: two texts with a single-entry metadata list; the first
record gets it, the second gets the empty mapping. -/
theorem fallback_append_short_metadata_witness :
    ∃ newRecs : List Record,
      fallback_append FileState.absent ["a", "b"] (some [[("source", "x")]])
          fake_embed =
        some (FileState.records (loadItems FileState.absent ++ newRecs)) ∧
      newRecs.length = 2 ∧
      newRecs[0]?.map Record.metadata = some [("source", "x")] ∧
      newRecs[1]?.map Record.metadata = some [] := by
  obtain ⟨nr, h1, h2, h3⟩ :=
    fallback_append_short_metadata FileState.absent ["a", "b"]
      (some [[("source", "x")]]) fake_embed (by rfl)
      (Or.inr ⟨[[("source", "x")]], rfl, by decide⟩)
  refine ⟨nr, h1, h2, ?_, ?_⟩
  · rw [h3 0 (by decide)]; rfl
  · rw [h3 1 (by decide)]; rfl

/-- Counterexample to C3 as stated: the fallback search of `search_chroma`
parses the existing file with no exception handler (line 239), so on a corrupt
file it raises (`none` in the model) instead of treating the store as empty. -/
theorem corrupt_search_raises : fallback_search FileState.corrupt "cat" 3 = none :=
  rfl

/-- C3 amended — Corrupt-fallback-file recovery holds for the append path
only: appending onto a corrupt file swallows the parse failure, treats the
store as empty and writes exactly the newly appended records (prior corrupt
content discarded, not merged).  The search path treats an absent file as an
empty store, but on a corrupt existing file the parse error escapes rather
than being swallowed. -/
theorem corrupt_fallback_recovery (texts : List String)
    (mds : Option (List Metadata)) (embedFn : EmbFn)
    (hlen : (embedFn texts).length = texts.length) :
    (∃ newRecs : List Record,
       fallback_append FileState.corrupt texts mds embedFn =
         some (FileState.records newRecs) ∧
       newRecs.length = texts.length ∧
       newRecs = builtRecords 0 0 texts mds (embedFn texts)) ∧
    (∀ q k, fallback_search FileState.absent q k = some []) ∧
    (∀ q k, fallback_search FileState.corrupt q k = none) := by
  refine ⟨⟨builtRecords 0 0 texts mds (embedFn texts), ?_, ?_, rfl⟩,
    fun q k => rfl, fun q k => rfl⟩
  · unfold fallback_append
    rw [appendLoop_eq texts (loadItems FileState.corrupt) mds (embedFn texts) 0
      (by omega)]
    rfl
  · exact builtRecords_length _ _ _ _ _

/-- Witness for the amended C3: appending one text onto a corrupt file yields
exactly one record. -/
theorem corrupt_fallback_recovery_witness :
    (∃ newRecs : List Record,
       fallback_append FileState.corrupt ["a"] none fake_embed =
         some (FileState.records newRecs) ∧
       newRecs.length = (["a"] : List String).length ∧
       newRecs = builtRecords 0 0 ["a"] none (fake_embed ["a"])) ∧
    (∀ q k, fallback_search FileState.absent q k = some []) ∧
    (∀ q k, fallback_search FileState.corrupt q k = none) :=
  corrupt_fallback_recovery ["a"] none fake_embed (by rfl)

/-! ## Lemmas about the fallback search's stable descending sort -/

theorem filter_orderedInsert_score (s : Nat) (a : Nat × Record) :
    ∀ l : List (Nat × Record),
      (l.orderedInsert (fun x y => y.1 ≤ x.1) a).filter (fun p => p.1 = s) =
        if a.1 = s then a :: l.filter (fun p => p.1 = s)
        else l.filter (fun p => p.1 = s)
  | [] => by
    by_cases h : a.1 = s <;> simp [List.orderedInsert, h]
  | b :: t => by
    have ih := filter_orderedInsert_score s a t
    by_cases hr : b.1 ≤ a.1
    · rw [show (b :: t).orderedInsert (fun x y => y.1 ≤ x.1) a = a :: b :: t by
        simp [List.orderedInsert, hr]]
      by_cases h : a.1 = s <;> simp [List.filter_cons, h]
    · rw [show (b :: t).orderedInsert (fun x y => y.1 ≤ x.1) a =
          b :: t.orderedInsert (fun x y => y.1 ≤ x.1) a by
        simp [List.orderedInsert, hr]]
      by_cases h : a.1 = s
      · have hbs : ¬ b.1 = s := by omega
        simp [List.filter_cons, hbs, ih, h]
      · by_cases hbs : b.1 = s <;> simp [List.filter_cons, hbs, ih, h]

theorem filter_sortScored (s : Nat) :
    ∀ l : List (Nat × Record),
      (sortScored l).filter (fun p => p.1 = s) = l.filter (fun p => p.1 = s)
  | [] => rfl
  | a :: t => by
    have ih := filter_sortScored s t
    have hoi := filter_orderedInsert_score s a (sortScored t)
    unfold sortScored at hoi ih ⊢
    rw [List.insertionSort, hoi, ih]
    by_cases h : a.1 = s <;> simp [List.filter_cons, h]

theorem sortScored_perm (l : List (Nat × Record)) : (sortScored l).Perm l :=
  List.perm_insertionSort _ l

theorem sortScored_pairwise (l : List (Nat × Record)) :
    (sortScored l).Pairwise (fun a b => b.1 ≤ a.1) := by
  haveI : IsTotal (Nat × Record) (fun a b => b.1 ≤ a.1) :=
    ⟨fun a b => Nat.le_total b.1 a.1⟩
  haveI : IsTrans (Nat × Record) (fun a b => b.1 ≤ a.1) :=
    ⟨fun a b c h1 h2 => Nat.le_trans h2 h1⟩
  exact List.sorted_insertionSort _ l

/-- C2 — Fallback search algorithm: the search scores every stored record by
the size of the intersection of its lowercase-whitespace token set with the
query's (definitions `tokenSet`/`scoreOf`/`scoredList`), sorts the scored list
descending by score, breaking ties by original stored order (the sort is a
permutation, its scores are pairwise non-increasing, and for every score value
the records carrying that score appear exactly in their stored order), and
returns the top `k`; on the spec's example store the record "the cat sat"
(overlap 2) ranks above "a dog ran" (overlap 0). -/
theorem fallback_search_spec :
    (∀ data query, (sortScored (scoredList data query)).Perm (scoredList data query)) ∧
    (∀ data query,
       (sortScored (scoredList data query)).Pairwise (fun a b => b.1 ≤ a.1)) ∧
    (∀ data query s,
       (sortScored (scoredList data query)).filter (fun p => p.1 = s) =
         (scoredList data query).filter (fun p => p.1 = s)) ∧
    (∀ data query k,
       fallback_search (FileState.records data) query k =
         some (((sortScored (scoredList data query)).take k).map Prod.snd)) ∧
    scoreOf "cat sat" "the cat sat" = 2 ∧
    scoreOf "cat sat" "a dog ran" = 0 ∧
    fallback_search (FileState.records
        [⟨"doc-1", "the cat sat", [], []⟩, ⟨"doc-2", "a dog ran", [], []⟩])
      "cat sat" 3 =
      some [⟨"doc-1", "the cat sat", [], []⟩, ⟨"doc-2", "a dog ran", [], []⟩] :=
  ⟨fun _ _ => sortScored_perm _, fun _ _ => sortScored_pairwise _,
   fun data query s => filter_sortScored s (scoredList data query),
   fun _ _ _ => rfl, by decide, by decide, by decide⟩

/-- C7 — Open always yields an embedding function: whatever the persist state,
the import availability and the outcome of every vector-index construction
attempt, `get_chroma_db` returns the resolved embedding function as the second
component of its result, also when the store-handle component is absent. -/
theorem get_chroma_db_returns_embedding_fn (env : ChromaEnv) (embedFn : EmbFn)
    (s : StoreState) : (get_chroma_db env embedFn s).1.2 = embedFn := by
  simp only [get_chroma_db, reinit_chroma_dir]
  repeat' split
  all_goals rfl

/-- C6 — Open reinit-and-retry-once: when the first construction attempt fails
with a message containing (case-insensitively) "dimension", "embedding" or
"mismatch", the persist directory is wiped and recreated empty (`dir` becomes
an existing empty directory, `reinits` grows by one) and opening is retried
exactly once (exactly one further outcome is consumed), the handle being
present exactly when the retry succeeded; when the message matches none of
the three substrings, no reinit happens and the handle is absent.  In both
shapes the function returns normally (total model: nothing is raised). -/
theorem open_reinit_retry (env : ChromaEnv) (embedFn : EmbFn) (s : StoreState)
    (e : String)
    (hA : env.chromaAvailable = true)
    (hO1 : env.openOutcome s.openIdx = .error e) :
    (mismatchOpenMsg e = true →
       get_chroma_db env embedFn s =
         ((match env.openOutcome (s.openIdx + 1) with
           | .ok _ => some ()
           | .error _ => none, embedFn),
          { s with openIdx := s.openIdx + 2, reinits := s.reinits + 1,
                   dir := some [] })) ∧
    (mismatchOpenMsg e = false →
       get_chroma_db env embedFn s =
         ((none, embedFn), { s with openIdx := s.openIdx + 1 })) := by
  obtain ⟨o, a, r, d, f⟩ := s
  constructor
  · intro hm
    unfold get_chroma_db reinit_chroma_dir
    simp only [hA, hO1, hm] at *
    cases h2 : env.openOutcome (o + 1) <;> simp [hO1, hm, h2]
  · intro hm
    unfold get_chroma_db
    simp [hA, hO1, hm]

/-- Concrete environment for the C6 witness: the first construction fails with
a dimension message, the retry succeeds. -/
def envOpenDim : ChromaEnv :=
  ⟨true, fun n => if n = 0 then .error "dimension" else .ok (), fun _ => .ok ()⟩

/-- Witness for C6: on `envOpenDim` the open wipes the non-empty persist
directory, retries once and returns a handle. -/
theorem open_reinit_retry_witness :
    get_chroma_db envOpenDim fake_embed ⟨0, 0, 0, some ["old"], FileState.absent⟩ =
      ((some (), fake_embed), ⟨2, 0, 1, some [], FileState.absent⟩) := by
  have h := (open_reinit_retry envOpenDim fake_embed
    ⟨0, 0, 0, some ["old"], FileState.absent⟩ "dimension" rfl rfl).1 (by decide)
  simpa using h

/-- Concrete environment refuting C5 as stated: the store opens fine but every
`add_texts` call fails with the message "embedding". -/
def envAddEmbeddingMsg : ChromaEnv :=
  ⟨true, fun _ => .ok (), fun _ => .error "embedding"⟩

/-- Counterexample to C5 as stated: an add failure whose message contains
"embedding" (one of the three substrings the claim lists, and indeed part of
the open-path pattern) triggers no reinit and no retry on the add path — the
run performs zero reinits and consumes exactly one add outcome, because line
192 tests "dimension"/"mismatch"/"shape", not "embedding".  The request still
lands in the fallback store. -/
theorem add_embedding_message_no_retry :
    (add_documents_to_chroma envAddEmbeddingMsg fake_embed ["t"] none
        ⟨0, 0, 0, some [], FileState.absent⟩).map
      (fun s => (s.reinits, s.addIdx, s.openIdx)) = some (0, 1, 1) ∧
    mismatchOpenMsg "embedding" = true ∧
    mismatchAddMsg "embedding" = false :=
  ⟨by rfl, by decide, by decide⟩

/-- C5 amended — Add-path mismatch retry: for an add failure whose message
case-insensitively contains "dimension", "mismatch" or "shape" (not
"embedding"), the manager destructively reinitializes the persist directory
(one reinit; the directory ends existing and empty), reopens a fresh handle
and retries the add exactly once (exactly two add outcomes consumed); when
the retry also fails, the request is routed to the fallback store rather than
raised. -/
theorem add_mismatch_retry (env : ChromaEnv) (embedFn : EmbFn)
    (texts : List String) (mds : Option (List Metadata)) (s : StoreState)
    (e e2 : String)
    (hA : env.chromaAvailable = true)
    (hO1 : env.openOutcome s.openIdx = .ok ())
    (hAdd1 : env.addOutcome s.addIdx = .error e)
    (hM : mismatchAddMsg e = true)
    (hO2 : env.openOutcome (s.openIdx + 1) = .ok ())
    (hAdd2 : env.addOutcome (s.addIdx + 1) = .error e2)
    (hlen : (embedFn texts).length = texts.length) :
    add_documents_to_chroma env embedFn texts mds s =
      some { openIdx := s.openIdx + 2, addIdx := s.addIdx + 2,
             reinits := s.reinits + 1, dir := some [],
             file := FileState.records (loadItems s.file ++
               builtRecords (loadItems s.file).length 0 texts mds
                 (embedFn texts)) } := by
  obtain ⟨o, a, r, d, f⟩ := s
  have hg1 : get_chroma_db env embedFn ⟨o, a, r, d, f⟩ =
      ((some (), embedFn), ⟨o + 1, a, r, d, f⟩) := by
    unfold get_chroma_db
    simp [hA, hO1]
  have hg2 : get_chroma_db env embedFn ⟨o + 1, a + 1, r + 1, some [], f⟩ =
      ((some (), embedFn), ⟨o + 2, a + 1, r + 1, some [], f⟩) := by
    unfold get_chroma_db
    simp [hA, hO2]
  simp only [add_documents_to_chroma, reinit_chroma_dir, hg1, hg2, hAdd1, hAdd2,
    hM, if_true, writeFallbackState]
  rw [appendLoop_eq texts (loadItems f) mds (embedFn texts) 0 (by omega)]
  rfl

/-- Concrete environment for the C5-amended witness: open always succeeds,
every add fails with a dimension-mismatch message. -/
def envAddDimMsg : ChromaEnv :=
  ⟨true, fun _ => .ok (), fun _ => .error "Dimension mismatch"⟩

/-- Witness for the amended C5: on `envAddDimMsg`, adding one text performs
one reinit, two add attempts, and lands the record in the fallback store. -/
theorem add_mismatch_retry_witness :
    add_documents_to_chroma envAddDimMsg fake_embed ["t"] none
        ⟨0, 0, 0, some ["old"], FileState.absent⟩ =
      some { openIdx := 2, addIdx := 2, reinits := 1, dir := some [],
             file := FileState.records (loadItems FileState.absent ++
               builtRecords (loadItems FileState.absent).length 0 ["t"] none
                 (fake_embed ["t"])) } :=
  add_mismatch_retry envAddDimMsg fake_embed ["t"] none
    ⟨0, 0, 0, some ["old"], FileState.absent⟩ "Dimension mismatch"
    "Dimension mismatch" rfl rfl rfl (by decide) rfl rfl rfl

/-- C4 — Ingest total resilience: when the store handle opens but the add
operation fails with a message matching none of the add-path mismatch
substrings, ingesting `["hello world"]` with metadata `[{"source": "x"}]`
returns normally (nothing raised), performs no reinit and no retry (the
reinit counter and directory are untouched and exactly one add outcome is
consumed), and the fallback file gains exactly one record with text
"hello world" and metadata `{"source": "x"}`. -/
theorem ingest_total_resilience (env : ChromaEnv) (embedFn : EmbFn)
    (s : StoreState) (e : String)
    (hA : env.chromaAvailable = true)
    (hO : env.openOutcome s.openIdx = .ok ())
    (hAdd : env.addOutcome s.addIdx = .error e)
    (hNo : mismatchAddMsg e = false)
    (hlen : (embedFn ["hello world"]).length = 1) :
    add_documents_to_chroma env embedFn ["hello world"]
        (some [[("source", "x")]]) s =
      some { openIdx := s.openIdx + 1, addIdx := s.addIdx + 1,
             reinits := s.reinits, dir := s.dir,
             file := FileState.records (loadItems s.file ++
               [{ id := "doc-" ++ toString ((loadItems s.file).length + 1),
                  text := "hello world", metadata := [("source", "x")],
                  embedding := (embedFn ["hello world"]).getD 0 [] }]) } := by
  obtain ⟨o, a, r, d, f⟩ := s
  have hg1 : get_chroma_db env embedFn ⟨o, a, r, d, f⟩ =
      ((some (), embedFn), ⟨o + 1, a, r, d, f⟩) := by
    unfold get_chroma_db
    simp [hA, hO]
  simp only [add_documents_to_chroma, hg1, hAdd, hNo, if_false,
    writeFallbackState, Bool.false_eq_true]
  rw [appendLoop_eq ["hello world"] (loadItems f)
    (some [[("source", "x")]]) (embedFn ["hello world"]) 0 (by simp [hlen])]
  simp only [builtRecords, mdAt]
  rfl

/-- Concrete environment for the C4 witness: open succeeds, every add fails
with a message matching no mismatch substring. -/
def envAddBoom : ChromaEnv := ⟨true, fun _ => .ok (), fun _ => .error "boom"⟩

/-- Witness for C4: the failed add routes "hello world" into the fallback
store with its metadata, with no reinit. -/
theorem ingest_total_resilience_witness :
    add_documents_to_chroma envAddBoom fake_embed ["hello world"]
        (some [[("source", "x")]]) ⟨0, 0, 0, some [], FileState.absent⟩ =
      some { openIdx := 1, addIdx := 1, reinits := 0, dir := some [],
             file := FileState.records
               [{ id := "doc-1", text := "hello world",
                  metadata := [("source", "x")],
                  embedding := (fake_embed ["hello world"]).getD 0 [] }] } :=
  ingest_total_resilience envAddBoom fake_embed
    ⟨0, 0, 0, some [], FileState.absent⟩ "boom" rfl rfl rfl (by decide) rfl

/-! ## Lemmas about the deterministic stub embedding -/

/-- Element `i` of a list padded with `c` up to length `n` and truncated to
`n`: inside bounds it is the original element, beyond them the pad. -/
theorem padTakeGet (c : Char) (cs : List Char) :
    ∀ (n i : Nat), i < n →
      ((cs ++ List.replicate (n - cs.length) c).take n)[i]? = some (cs.getD i c) := by
  induction cs with
  | nil =>
    intro n i h
    simp [List.take_replicate, List.getElem?_replicate, h]
  | cons a tl ih =>
    intro n i h
    cases n with
    | zero => exact absurd h (Nat.not_lt_zero i)
    | succ m =>
      cases i with
      | zero => simp [Nat.succ_sub_succ]
      | succ j =>
        have hj : j < m := Nat.lt_of_succ_lt_succ h
        simp only [List.cons_append, List.length_cons, Nat.succ_sub_succ,
          List.take_succ_cons, List.getElem?_cons_succ, List.getD_cons_succ]
        exact ih m j hj

/-- The i-th character of the input string truncated or NUL-padded to the
stub's 32-character window (claim C8's description of component `i`). -/
def truncPadChar (s : String) (i : Nat) : Char :=
  if i < s.length then s.toList.getD i '\x00' else '\x00'

theorem toList_getD_eq_truncPadChar (s : String) (i : Nat) :
    s.toList.getD i '\x00' = truncPadChar s i := by
  unfold truncPadChar
  by_cases h : i < s.length
  · simp [h]
  · simp only [h, if_false]
    exact List.getD_eq_default _ _ (Nat.le_of_not_lt h)

theorem take256_getD (s : String) (i : Nat) (h : i < 32) :
    (s.toList.take 256).getD i '\x00' = s.toList.getD i '\x00' := by
  rw [List.getD_eq_getElem?_getD, List.getD_eq_getElem?_getD,
    List.getElem?_take, if_pos (by omega : i < 256)]

/-- C8 — Stub embedding is a pure fixed-size function: `_fake_embed` returns
one vector per input string in order; each vector has length exactly 32; for
`i < 32` component `i` equals `ord(c_i) mod 97 / 97` where `c_i` is the i-th
character of the input truncated/NUL-padded to 32 characters
(`truncPadChar`); and identical input yields identical output across calls. -/
theorem fake_embed_stub_spec :
    (∀ texts, (fake_embed texts).length = texts.length) ∧
    (∀ texts j, j < texts.length →
       (fake_embed texts)[j]? = some (fakeVec (texts.getD j ""))) ∧
    (∀ s, (fakeVec s).length = 32) ∧
    (∀ s i, i < 32 →
       (fakeVec s).getD i 0 = (((truncPadChar s i).toNat % 97 : ℕ) : ℚ) / 97) ∧
    (∀ s, fake_embed [s] = fake_embed [s]) := by
  refine ⟨fun texts => List.length_map _ _, ?_, ?_, ?_, fun s => rfl⟩
  · intro texts j hj
    rw [show fake_embed texts = texts.map fakeVec from rfl, List.getElem?_map,
      List.getElem?_eq_getElem hj]
    rw [List.getD_eq_getElem?_getD, List.getElem?_eq_getElem hj]
    rfl
  · intro s
    simp only [fakeVec, List.length_map, List.length_take, List.length_append,
      List.length_replicate]
    omega
  · intro s i h
    unfold fakeVec
    rw [List.getD_eq_getElem?_getD, List.getElem?_map,
      padTakeGet '\x00' (s.toList.take 256) 32 i h, take256_getD s i h,
      toList_getD_eq_truncPadChar]
    rfl

/-- Witness for C8 at the concrete string "ab": 32 components, component 0 is
`ord('a') mod 97 / 97 = 0` and component 1 is `ord('b') mod 97 / 97 = 1/97`,
component 5 is the NUL pad's value 0. -/
theorem fake_embed_stub_spec_witness :
    (fakeVec "ab").length = 32 ∧
    (fakeVec "ab").getD 0 0 = (((truncPadChar "ab" 0).toNat % 97 : ℕ) : ℚ) / 97 ∧
    (fakeVec "ab").getD 1 0 = (((truncPadChar "ab" 1).toNat % 97 : ℕ) : ℚ) / 97 ∧
    (fakeVec "ab").getD 5 0 = (((truncPadChar "ab" 5).toNat % 97 : ℕ) : ℚ) / 97 ∧
    (fake_embed ["ab"])[0]? = some (fakeVec ((["ab"] : List String).getD 0 "")) :=
  ⟨fake_embed_stub_spec.2.2.1 "ab",
   fake_embed_stub_spec.2.2.2.1 "ab" 0 (by decide),
   fake_embed_stub_spec.2.2.2.1 "ab" 1 (by decide),
   fake_embed_stub_spec.2.2.2.1 "ab" 5 (by decide),
   fake_embed_stub_spec.2.1 ["ab"] 0 (by decide)⟩

/-- C9 — Adapter single-query equation: for every wrapped embedding callable
`f`, the adapter's `embed_query text` equals `embed_documents [text] [0]`
(both written through the same head-of-batch reading), and `embed_documents`
is exactly the wrapped callable — wrapping adds no other behavior and keeps
no state (an `EmbeddingAdapter` carries nothing but `fn`). -/
theorem adapter_embed_query_eq :
    (∀ (f : EmbFn) (t : String),
       (EmbeddingAdapter.mk f).embed_query t =
         ((EmbeddingAdapter.mk f).embed_documents [t]).head?) ∧
    (∀ (f : EmbFn) (ts : List String),
       (EmbeddingAdapter.mk f).embed_documents ts = f ts) :=
  ⟨fun _ _ => rfl, fun _ _ => rfl⟩
